import Mathlib

/-!
Verification of the voting program in `src/anchor/programs/voting/src/lib.rs`.

The program state is a keyed store of accounts.  Program-derived addresses
are modelled as the concatenation of the seed byte strings (the real
derivation hashes that concatenation, together with the fixed program id and
a bump byte, so two seed tuples with the same concatenation derive the same
address, and the hash is idealized as injective on distinct concatenations).
Machine integers (`u64`) are modelled as `Nat`; the counters of this program
only ever grow by one per successful instruction.

Each Anchor instruction is split in two, mirroring the source:
- the handler function (named as in the source: `initialize_poll`,
  `initialize_candidate`, `vote`), which is the body of the Rust function
  and runs on already-resolved accounts; and
- the whole-instruction transition (`initializePollOp`, …`Op`), which also
  performs the account-constraint stage that Anchor generates from the
  `#[derive(Accounts)]` structs: `init` fails on an occupied address,
  a referenced account must exist with the right discriminator, and
  `init_if_needed` creates a zeroed record when the address is free.
An instruction either returns the new store or an error, in which case the
store is unchanged (the ledger commits atomically).
-/

namespace Voting

/-- Account addresses (storage keys): byte strings. -/
abbrev Addr : Type := List Nat

/-- Caller identities (`Pubkey`): byte strings, 32 bytes in the real system. -/
abbrev Pubkey : Type := List Nat

/-- `u64::to_le_bytes`: the eight little-endian base-256 digits. -/
def u64le (n : Nat) : List Nat :=
  [n % 256, n / 256 % 256, n / 65536 % 256, n / 16777216 % 256,
   n / 4294967296 % 256, n / 1099511627776 % 256,
   n / 281474976710656 % 256, n / 72057594037927936 % 256]

/-- UTF-8 encoding of a unicode scalar value (arithmetic formulation). -/
def utf8EncodeCharNat (n : Nat) : List Nat :=
  if n < 128 then [n]
  else if n < 2048 then [192 + n / 64, 128 + n % 64]
  else if n < 65536 then [224 + n / 4096, 128 + n / 64 % 64, 128 + n % 64]
  else [240 + n / 262144, 128 + n / 4096 % 64, 128 + n / 64 % 64, 128 + n % 64]

/-- The UTF-8 bytes of a string, as Rust's `String::as_ref::<[u8]>` yields them. -/
def strBytes (s : String) : List Nat :=
  (s.data.map (fun c => utf8EncodeCharNat c.toNat)).flatten

/-- UTF-8 decoder (left inverse of the encoder on well-formed input);
used only to prove the encoder injective. -/
def utf8DecodeNat : List Nat → List Nat
  | [] => []
  | b :: bs =>
    if b < 128 then b :: utf8DecodeNat bs
    else if b < 224 then
      ((b - 192) * 64 + (bs.headD 0 - 128)) :: utf8DecodeNat (bs.drop 1)
    else if b < 240 then
      ((b - 224) * 4096 + (bs.headD 0 - 128) * 64 + ((bs.drop 1).headD 0 - 128)) ::
        utf8DecodeNat (bs.drop 2)
    else
      ((b - 240) * 262144 + (bs.headD 0 - 128) * 4096 + ((bs.drop 1).headD 0 - 128) * 64 +
        ((bs.drop 2).headD 0 - 128)) :: utf8DecodeNat (bs.drop 3)
termination_by l => l.length
decreasing_by
  all_goals simp [List.length_drop]
  all_goals omega

/-- The `Poll` account. -/
structure Poll where
  poll_id : Nat
  description : String
  poll_start : Nat
  poll_end : Nat
  candidate_amount : Nat
  total_votes : Nat
deriving DecidableEq

/-- The `Candidate` account. -/
structure Candidate where
  candidate_name : String
  candidate_votes : Nat
deriving DecidableEq

/-- The `VoterRecord` account. -/
structure VoterRecord where
  voted : Bool
  poll : Addr
deriving DecidableEq

/-- A stored account: one of the three record kinds (the kind tag models the
Anchor account discriminator). -/
inductive Record
  | poll (p : Poll)
  | candidate (c : Candidate)
  | voterRecord (v : VoterRecord)
deriving DecidableEq

/-- The keyed store: an association list from addresses to records. -/
abbrev Store := List (Addr × Record)

/-- Look an address up in the store. -/
def lookup (s : Store) (a : Addr) : Option Record :=
  match s with
  | [] => none
  | e :: rest => if e.1 = a then some e.2 else lookup rest a

/-- Write a record at an address (replacing what was there, if anything). -/
def storeInsert (s : Store) (a : Addr) (r : Record) : Store :=
  (a, r) :: s.filter (fun e => decide (e.1 ≠ a))

/-- Poll address: seeds `[poll_id.to_le_bytes()]`. -/
def pollAddress (poll_id : Nat) : Addr := u64le poll_id

/-- Candidate address: seeds `[poll_id.to_le_bytes(), candidate_name]`. -/
def candidateAddress (poll_id : Nat) (candidate_name : String) : Addr :=
  u64le poll_id ++ strBytes candidate_name

/-- Voter-record address: seeds `[signer.key(), poll_id.to_le_bytes()]`. -/
def voterAddress (signer : Pubkey) (poll_id : Nat) : Addr :=
  signer ++ u64le poll_id

/-- `VotingError` from the source. -/
inductive VotingError
  | PollNotStarted
  | PollEnded
  | InvalidTimestamp
  | PollEndedInPast
  | InvalidPollDuration
  | AlreadyVoted
deriving DecidableEq

/-- A whole-instruction failure: either an error raised by the handler body,
or a failure of the account-constraint stage. -/
inductive TxError
  | program (e : VotingError)
  | accountAlreadyExists
  | accountNotFound
deriving DecidableEq

/-- `is_valid_unix_timestamp` from the source. -/
def is_valid_unix_timestamp (timestamp : Nat) : Bool :=
  let max_reasonable_timestamp : Nat := 1893456000
  decide (timestamp > 0) && decide (timestamp < max_reasonable_timestamp)

/-- Handler body of `initialize_poll`: validates the timestamps and the
duration ordering, then fills in the freshly created poll account. -/
def initialize_poll (poll_id : Nat) (description : String)
    (poll_start poll_end : Nat) : Except VotingError Poll :=
  if !(is_valid_unix_timestamp poll_start) || !(is_valid_unix_timestamp poll_end) then
    .error .InvalidTimestamp
  else if poll_start ≥ poll_end then
    .error .InvalidPollDuration
  else
    .ok { poll_id := poll_id, description := description, poll_start := poll_start,
          poll_end := poll_end, candidate_amount := 0, total_votes := 0 }

/-- Handler body of `initialize_candidate`: fills in the fresh candidate
account and bumps the poll's `candidate_amount`. -/
def initialize_candidate (candidate_name : String) (poll : Poll) : Candidate × Poll :=
  ({ candidate_name := candidate_name, candidate_votes := 0 },
   { poll with candidate_amount := poll.candidate_amount + 1 })

/-- Handler body of `vote`: rejects a voter record already marked voted,
otherwise bumps both counters and marks the voter record.  Returns the
updated candidate, poll and voter record (in the source's write order). -/
def vote (poll_key : Addr) (poll : Poll) (candidate : Candidate)
    (voter_record : VoterRecord) : Except VotingError (Candidate × Poll × VoterRecord) :=
  if voter_record.voted then
    .error .AlreadyVoted
  else
    .ok ({ candidate with candidate_votes := candidate.candidate_votes + 1 },
         { poll with total_votes := poll.total_votes + 1 },
         { voted := true, poll := poll_key })

/-- A newly `init_if_needed`-created voter record: zeroed memory, so
`voted = false` and an all-zero 32-byte back-reference. -/
def defaultVoterRecord : VoterRecord :=
  { voted := false, poll := List.replicate 32 0 }

/-- Whole `initialize_poll` instruction: `init` the poll account at its
derived address (fails if occupied), then run the handler. -/
def initializePollOp (s : Store) (poll_id : Nat) (description : String)
    (poll_start poll_end : Nat) : Except TxError Store :=
  match lookup s (pollAddress poll_id) with
  | some _ => .error .accountAlreadyExists
  | none =>
    match initialize_poll poll_id description poll_start poll_end with
    | .error e => .error (.program e)
    | .ok poll => .ok (storeInsert s (pollAddress poll_id) (.poll poll))

/-- Whole `initialize_candidate` instruction: the poll must exist at its
derived address, the candidate account is `init`ed at its derived address
(fails if occupied), then the handler runs. -/
def initializeCandidateOp (s : Store) (candidate_name : String) (poll_id : Nat) :
    Except TxError Store :=
  match lookup s (pollAddress poll_id) with
  | some (.poll p) =>
    match lookup s (candidateAddress poll_id candidate_name) with
    | some _ => .error .accountAlreadyExists
    | none =>
      let res := initialize_candidate candidate_name p
      .ok (storeInsert
            (storeInsert s (candidateAddress poll_id candidate_name) (.candidate res.1))
            (pollAddress poll_id) (.poll res.2))
  | _ => .error .accountNotFound

/-- Commit the three records written by a successful `vote` handler run. -/
def voteFinish (s : Store) (signer : Pubkey) (candidate_name : String) (poll_id : Nat)
    (p : Poll) (c : Candidate) (vr : VoterRecord) : Except TxError Store :=
  match vote (pollAddress poll_id) p c vr with
  | .error e => .error (.program e)
  | .ok res =>
    .ok (storeInsert
          (storeInsert
            (storeInsert s (candidateAddress poll_id candidate_name) (.candidate res.1))
            (pollAddress poll_id) (.poll res.2.1))
          (voterAddress signer poll_id) (.voterRecord res.2.2))

/-- Whole `vote` instruction: the poll and the candidate must exist at their
derived addresses, the voter record is `init_if_needed` at its derived
address (reused when present, zero-created when absent, and an account of a
different kind there is a discriminator failure), then the handler runs. -/
def voteOp (s : Store) (signer : Pubkey) (candidate_name : String) (poll_id : Nat) :
    Except TxError Store :=
  match lookup s (pollAddress poll_id) with
  | some (.poll p) =>
    match lookup s (candidateAddress poll_id candidate_name) with
    | some (.candidate c) =>
      match lookup s (voterAddress signer poll_id) with
      | some (.voterRecord vr) => voteFinish s signer candidate_name poll_id p c vr
      | none => voteFinish s signer candidate_name poll_id p c defaultVoterRecord
      | some _ => .error .accountNotFound
    | _ => .error .accountNotFound
  | _ => .error .accountNotFound

/-- The store after a `vote` instruction: the new store on success, the old
store on failure (the ledger rolls an aborted transaction back). -/
def applyVoteOp (s : Store) (signer : Pubkey) (candidate_name : String)
    (poll_id : Nat) : Store :=
  match voteOp s signer candidate_name poll_id with
  | .ok s' => s'
  | .error _ => s

/-- States reachable from the empty store by the three instructions. -/
inductive Reachable : Store → Prop
  | empty : Reachable []
  | initPoll {s s' : Store} (poll_id : Nat) (description : String)
      (poll_start poll_end : Nat) :
      Reachable s → initializePollOp s poll_id description poll_start poll_end = .ok s' →
      Reachable s'
  | initCandidate {s s' : Store} (candidate_name : String) (poll_id : Nat) :
      Reachable s → initializeCandidateOp s candidate_name poll_id = .ok s' →
      Reachable s'
  | castVote {s s' : Store} (signer : Pubkey) (candidate_name : String) (poll_id : Nat) :
      Reachable s → voteOp s signer candidate_name poll_id = .ok s' →
      Reachable s'

/-- The contribution of one store entry to a poll's candidate-vote total:
candidate records whose address starts with the poll's 8 seed bytes. -/
def contrib (a : Addr) (r : Record) (poll_id : Nat) : Nat :=
  match r with
  | .candidate c => if a.take 8 = u64le poll_id then c.candidate_votes else 0
  | _ => 0

/-- Sum of `candidate_votes` over all candidates belonging to a poll. -/
def candSum (s : Store) (poll_id : Nat) : Nat :=
  (s.map (fun e => contrib e.1 e.2 poll_id)).sum

/-- The keys of the store, with no duplicates. -/
def keysNodup (s : Store) : Prop := (s.map Prod.fst).Nodup

theorem mem_of_lookup_eq_some {s : Store} {a : Addr} {r : Record}
    (h : lookup s a = some r) : (a, r) ∈ s := by
  induction s with
  | nil => simp [lookup] at h
  | cons e t ih =>
    rw [lookup] at h
    split at h
    · next heq =>
      cases e with
      | mk b q =>
        cases h
        simp only at heq
        subst heq
        exact List.mem_cons_self _ _
    · exact List.mem_cons_of_mem _ (ih h)

theorem lookup_eq_none_of_not_mem_keys {s : Store} {a : Addr}
    (h : a ∉ s.map Prod.fst) : lookup s a = none := by
  induction s with
  | nil => rfl
  | cons e t ih =>
    rw [lookup]
    simp only [List.map_cons, List.mem_cons] at h
    push_neg at h
    rw [if_neg (fun hc => h.1 hc.symm)]
    exact ih h.2

theorem not_mem_of_lookup_eq_none {s : Store} {a : Addr} {r : Record}
    (h : lookup s a = none) : (a, r) ∉ s := by
  induction s with
  | nil => simp
  | cons e t ih =>
    rw [lookup] at h
    split at h
    · exact absurd h (by simp)
    · next hne =>
      intro hm
      rcases List.mem_cons.mp hm with hm | hm
      · exact hne (by rw [← hm])
      · exact ih h hm

theorem lookup_filter_ne {s : Store} {a b : Addr} (hne : b ≠ a) :
    lookup (s.filter (fun e => decide (e.1 ≠ a))) b = lookup s b := by
  induction s with
  | nil => rfl
  | cons e t ih =>
    by_cases hea : e.1 = a
    · rw [List.filter_cons_of_neg (by simp [hea]), lookup,
        if_neg (fun hc => hne (by rw [← hc, hea])), ih]
    · rw [List.filter_cons_of_pos (by simp [hea]), lookup, lookup]
      split
      · rfl
      · exact ih

theorem lookup_storeInsert_self (s : Store) (a : Addr) (r : Record) :
    lookup (storeInsert s a r) a = some r := by
  rw [storeInsert, lookup, if_pos rfl]

theorem lookup_storeInsert (s : Store) (a : Addr) (r : Record) (b : Addr) :
    lookup (storeInsert s a r) b = if b = a then some r else lookup s b := by
  split
  · next h => rw [h, lookup_storeInsert_self]
  · next h => rw [storeInsert, lookup, if_neg (fun hc => h hc.symm), lookup_filter_ne h]

theorem mem_storeInsert_iff {s : Store} {a b : Addr} {r q : Record} :
    (b, q) ∈ storeInsert s a r ↔ (b = a ∧ q = r) ∨ ((b, q) ∈ s ∧ b ≠ a) := by
  rw [storeInsert, List.mem_cons, List.mem_filter]
  simp [Prod.ext_iff, and_comm]

theorem keysNodup_storeInsert {s : Store} (h : keysNodup s) (a : Addr) (r : Record) :
    keysNodup (storeInsert s a r) := by
  rw [keysNodup, storeInsert, List.map_cons, List.nodup_cons]
  refine ⟨?_, ((List.filter_sublist s).map Prod.fst).nodup h⟩
  intro hmem
  rcases List.mem_map.mp hmem with ⟨e, he, hfst⟩
  rcases List.mem_filter.mp he with ⟨_, hp⟩
  exact (of_decide_eq_true hp) hfst

theorem keysNodup_tail {e : Addr × Record} {t : Store} (h : keysNodup (e :: t)) :
    keysNodup t := by
  rw [keysNodup, List.map_cons, List.nodup_cons] at h
  exact h.2

theorem filter_eq_self_of_lookup_none {s : Store} {a : Addr}
    (h : lookup s a = none) : s.filter (fun e => decide (e.1 ≠ a)) = s := by
  induction s with
  | nil => rfl
  | cons e t ih =>
    rw [lookup] at h
    split at h
    · exact absurd h (by simp)
    · next hne => rw [List.filter_cons_of_pos (by simpa using hne), ih h]

theorem candSum_storeInsert (s : Store) (a : Addr) (r : Record) (pid : Nat) :
    candSum (storeInsert s a r) pid =
      contrib a r pid + candSum (s.filter (fun e => decide (e.1 ≠ a))) pid := by
  rw [storeInsert, candSum, List.map_cons, List.sum_cons, candSum]

theorem candSum_eq_of_lookup {s : Store} {a : Addr} {r : Record} (pid : Nat)
    (h : keysNodup s) (hl : lookup s a = some r) :
    candSum s pid = contrib a r pid + candSum (s.filter (fun e => decide (e.1 ≠ a))) pid := by
  induction s with
  | nil => simp [lookup] at hl
  | cons e t ih =>
    rw [lookup] at hl
    split at hl
    · next hea =>
      cases hl
      have hnt : lookup t a = none := by
        apply lookup_eq_none_of_not_mem_keys
        rw [keysNodup, List.map_cons, List.nodup_cons] at h
        rw [← hea]
        exact h.1
      rw [List.filter_cons_of_neg (by simp [hea]), filter_eq_self_of_lookup_none hnt,
        candSum, List.map_cons, List.sum_cons, candSum, hea]
    · next hne =>
      rw [List.filter_cons_of_pos (by simpa using hne), candSum, List.map_cons,
        List.sum_cons, candSum, List.map_cons, List.sum_cons,
        ← candSum, ← candSum, ih (keysNodup_tail h) hl]
      omega

theorem u64le_length (n : Nat) : (u64le n).length = 8 := rfl

theorem u64le_inj {m n : Nat} (hm : m < 18446744073709551616)
    (hn : n < 18446744073709551616) (h : u64le m = u64le n) : m = n := by
  rw [u64le, u64le] at h
  simp only [List.cons.injEq, and_true] at h
  omega

theorem pollAddress_take8 (pid : Nat) : (pollAddress pid).take 8 = u64le pid := by
  rw [pollAddress, ← u64le_length pid, List.take_length]

theorem candidateAddress_take8 (pid : Nat) (n : String) :
    (candidateAddress pid n).take 8 = u64le pid := by
  rw [candidateAddress, ← u64le_length pid, List.take_left]

theorem contrib_poll (a : Addr) (p : Poll) (pid : Nat) :
    contrib a (.poll p) pid = 0 := rfl

theorem contrib_voterRecord (a : Addr) (v : VoterRecord) (pid : Nat) :
    contrib a (.voterRecord v) pid = 0 := rfl

theorem contrib_candidate (a : Addr) (c : Candidate) (pid : Nat) :
    contrib a (.candidate c) pid =
      if a.take 8 = u64le pid then c.candidate_votes else 0 := rfl

theorem utf8EncodeCharNat_ne_nil (n : Nat) : utf8EncodeCharNat n ≠ [] := by
  rw [utf8EncodeCharNat]
  split
  · simp
  · split
    · simp
    · split <;> simp

theorem utf8DecodeNat_encode (n : Nat) (h : n < 1114112) (rest : List Nat) :
    utf8DecodeNat (utf8EncodeCharNat n ++ rest) = n :: utf8DecodeNat rest := by
  rw [utf8EncodeCharNat]
  by_cases h1 : n < 128
  · rw [if_pos h1, List.cons_append, List.nil_append, utf8DecodeNat.eq_def]
    simp [h1]
  · rw [if_neg h1]
    by_cases h2 : n < 2048
    · rw [if_pos h2]
      show utf8DecodeNat ((192 + n / 64) :: (128 + n % 64) :: rest) = _
      rw [utf8DecodeNat.eq_def]
      simp only [if_neg (by omega : ¬192 + n / 64 < 128),
        if_pos (by omega : 192 + n / 64 < 224), List.headD_cons, List.drop_one,
        List.tail_cons]
      exact congrArg₂ List.cons (by omega) rfl
    · rw [if_neg h2]
      by_cases h3 : n < 65536
      · rw [if_pos h3]
        show utf8DecodeNat
          ((224 + n / 4096) :: (128 + n / 64 % 64) :: (128 + n % 64) :: rest) = _
        rw [utf8DecodeNat.eq_def]
        simp only [if_neg (by omega : ¬224 + n / 4096 < 128),
          if_neg (by omega : ¬224 + n / 4096 < 224),
          if_pos (by omega : 224 + n / 4096 < 240), List.headD_cons, List.drop_one,
          List.tail_cons, List.drop_succ_cons, List.drop_zero]
        exact congrArg₂ List.cons (by omega) rfl
      · rw [if_neg h3]
        show utf8DecodeNat
          ((240 + n / 262144) :: (128 + n / 4096 % 64) :: (128 + n / 64 % 64) ::
            (128 + n % 64) :: rest) = _
        rw [utf8DecodeNat.eq_def]
        simp only [if_neg (by omega : ¬240 + n / 262144 < 128),
          if_neg (by omega : ¬240 + n / 262144 < 224),
          if_neg (by omega : ¬240 + n / 262144 < 240), List.headD_cons, List.drop_one,
          List.tail_cons, List.drop_succ_cons, List.drop_zero]
        exact congrArg₂ List.cons (by omega) rfl

theorem char_toNat_lt (c : Char) : c.toNat < 1114112 := by
  have h := c.valid
  rcases h with h | ⟨h1, h2⟩
  · show c.val.toNat < _
    omega
  · exact h2

theorem utf8DecodeNat_flatten_encode (l : List Char) :
    utf8DecodeNat ((l.map (fun c => utf8EncodeCharNat c.toNat)).flatten) =
      l.map Char.toNat := by
  induction l with
  | nil => rw [List.map_nil, List.flatten_nil, utf8DecodeNat.eq_def, List.map_nil]
  | cons c t ih =>
    rw [List.map_cons, List.flatten_cons, utf8DecodeNat_encode _ (char_toNat_lt c), ih,
      List.map_cons]

theorem strBytes_inj {s₁ s₂ : String} (h : strBytes s₁ = strBytes s₂) : s₁ = s₂ := by
  have h2 : s₁.data.map Char.toNat = s₂.data.map Char.toNat := by
    rw [← utf8DecodeNat_flatten_encode s₁.data, ← utf8DecodeNat_flatten_encode s₂.data]
    exact congrArg _ h
  have hinj : Function.Injective Char.toNat := by
    intro a b hab
    apply Char.ext
    apply UInt32.ext
    exact hab
  have h3 : s₁.data = s₂.data := List.map_injective_iff.mpr hinj h2
  cases s₁
  cases s₂
  exact congrArg String.mk h3

theorem strBytes_ne_nil {s : String} (h : s ≠ "") : strBytes s ≠ [] := by
  cases hd : s.data with
  | nil =>
    exfalso
    apply h
    have hmk : ("" : String) = String.mk [] := rfl
    cases s
    rw [hmk]
    exact congrArg String.mk hd
  | cons c t =>
    rw [strBytes, hd, List.map_cons, List.flatten_cons]
    exact fun hc =>
      utf8EncodeCharNat_ne_nil c.toNat (List.append_eq_nil.mp hc).1

theorem candSum_eq_zero {s : Store} {pid : Nat}
    (h : ∀ e ∈ s, contrib e.1 e.2 pid = 0) : candSum s pid = 0 := by
  rw [candSum]
  apply List.sum_eq_zero
  intro x hx
  rcases List.mem_map.mp hx with ⟨e, he, hc⟩
  rw [← hc]
  exact h e he

theorem candSum_storeInsert_zero {s : Store} {a : Addr} {r : Record}
    (hn : keysNodup s) (q : Nat) (hr : contrib a r q = 0)
    (hold : ∀ r₀, lookup s a = some r₀ → contrib a r₀ q = 0) :
    candSum (storeInsert s a r) q = candSum s q := by
  cases hl : lookup s a with
  | none => rw [candSum_storeInsert, filter_eq_self_of_lookup_none hl, hr, Nat.zero_add]
  | some r₀ =>
    rw [candSum_storeInsert, hr, Nat.zero_add, candSum_eq_of_lookup q hn hl, hold r₀ hl,
      Nat.zero_add]

theorem candSum_storeInsert_update {s : Store} {a : Addr} {r r₀ : Record}
    (hn : keysNodup s) (hl : lookup s a = some r₀) (q : Nat) :
    candSum (storeInsert s a r) q + contrib a r₀ q = candSum s q + contrib a r q := by
  rw [candSum_storeInsert, candSum_eq_of_lookup q hn hl]
  omega

theorem addr_ne_of_lookup {s : Store} {a b : Addr} {x y : Option Record}
    (ha : lookup s a = x) (hb : lookup s b = y) (hxy : x ≠ y) : a ≠ b := by
  intro h
  apply hxy
  rw [← ha, ← hb, h]

theorem initialize_poll_ok {pid : Nat} {d : String} {ps pe : Nat} {P : Poll}
    (h : initialize_poll pid d ps pe = .ok P) :
    P = { poll_id := pid, description := d, poll_start := ps, poll_end := pe,
          candidate_amount := 0, total_votes := 0 } := by
  rw [initialize_poll] at h
  split at h
  · exact absurd h (by simp)
  · split at h
    · exact absurd h (by simp)
    · cases h
      rfl

theorem initializePollOp_ok {s s' : Store} {pid : Nat} {d : String} {ps pe : Nat}
    (h : initializePollOp s pid d ps pe = .ok s') :
    lookup s (pollAddress pid) = none ∧
      s' = storeInsert s (pollAddress pid)
        (.poll { poll_id := pid, description := d, poll_start := ps, poll_end := pe,
                 candidate_amount := 0, total_votes := 0 }) := by
  rw [initializePollOp] at h
  split at h
  · exact absurd h (by simp)
  · next hfree =>
    split at h
    · exact absurd h (by simp)
    · next P hP =>
      cases h
      exact ⟨hfree, by rw [initialize_poll_ok hP]⟩

theorem initializeCandidateOp_ok {s s' : Store} {n : String} {pid : Nat}
    (h : initializeCandidateOp s n pid = .ok s') :
    ∃ p, lookup s (pollAddress pid) = some (.poll p) ∧
      lookup s (candidateAddress pid n) = none ∧
      s' = storeInsert
            (storeInsert s (candidateAddress pid n)
              (.candidate { candidate_name := n, candidate_votes := 0 }))
            (pollAddress pid)
            (.poll { p with candidate_amount := p.candidate_amount + 1 }) := by
  rw [initializeCandidateOp] at h
  split at h
  · next p hp =>
    split at h
    · exact absurd h (by simp)
    · next hfree =>
      cases h
      exact ⟨p, hp, hfree, rfl⟩
  · exact absurd h (by simp)

theorem voteOp_ok {s s' : Store} {sg : Pubkey} {n : String} {pid : Nat}
    (h : voteOp s sg n pid = .ok s') :
    ∃ p c, lookup s (pollAddress pid) = some (.poll p) ∧
      lookup s (candidateAddress pid n) = some (.candidate c) ∧
      (lookup s (voterAddress sg pid) = none ∨
        ∃ r, lookup s (voterAddress sg pid) = some (.voterRecord r) ∧ r.voted = false) ∧
      s' = storeInsert
            (storeInsert
              (storeInsert s (candidateAddress pid n)
                (.candidate { candidate_name := c.candidate_name,
                              candidate_votes := c.candidate_votes + 1 }))
              (pollAddress pid)
              (.poll { p with total_votes := p.total_votes + 1 }))
            (voterAddress sg pid)
            (.voterRecord { voted := true, poll := pollAddress pid }) := by
  rw [voteOp] at h
  split at h
  · next p hp =>
    split at h
    · next c hc =>
      split at h
      · next vr hvr =>
        by_cases hv : vr.voted = true
        · simp only [voteFinish, vote, if_pos hv] at h
          exact absurd h (by simp)
        · simp only [voteFinish, vote, if_neg hv, Except.ok.injEq] at h
          exact ⟨p, c, hp, hc, Or.inr ⟨vr, hvr, by simpa using hv⟩, h.symm⟩
      · next hvr =>
        simp only [voteFinish, vote, defaultVoterRecord, Bool.false_eq_true, if_false,
          Except.ok.injEq] at h
        exact ⟨p, c, hp, hc, Or.inl hvr, h.symm⟩
      · exact absurd h (by simp)
    · exact absurd h (by simp)
  · exact absurd h (by simp)

/-- The reachability invariant: store keys are unique, every poll sits at the
address derived from its own `poll_id`, every candidate's poll exists at the
candidate address's 8-byte prefix, and every poll's `total_votes` equals the
sum of its candidates' `candidate_votes`. -/
structure Inv (s : Store) : Prop where
  nodup : keysNodup s
  poll_addr : ∀ a p, (a, Record.poll p) ∈ s → a = pollAddress p.poll_id
  cand_poll : ∀ a c, (a, Record.candidate c) ∈ s →
    ∃ q, lookup s (a.take 8) = some (Record.poll q)
  total_eq : ∀ a p, (a, Record.poll p) ∈ s → p.total_votes = candSum s p.poll_id

theorem pollAddress_def (pid : Nat) : pollAddress pid = u64le pid := rfl

theorem inv_initializePollOp {s s' : Store} {pid : Nat} {d : String} {ps pe : Nat}
    (hinv : Inv s) (h : initializePollOp s pid d ps pe = .ok s') : Inv s' := by
  obtain ⟨hfree, hs'⟩ := initializePollOp_ok h
  subst hs'
  have hzero : candSum s pid = 0 := by
    apply candSum_eq_zero
    intro e he
    rcases e with ⟨b, r⟩
    cases r with
    | poll _ => rfl
    | voterRecord _ => rfl
    | candidate c =>
      rw [contrib_candidate]
      split
      · next htake =>
        obtain ⟨q, hq⟩ := hinv.cand_poll b c he
        rw [htake, ← pollAddress_def, hfree] at hq
        cases hq
      · rfl
  constructor
  · exact keysNodup_storeInsert hinv.nodup _ _
  · intro a p hm
    rcases mem_storeInsert_iff.mp hm with ⟨ha, hr⟩ | ⟨hm', _⟩
    · injection hr with hpP
      rw [ha, hpP]
    · exact hinv.poll_addr a p hm'
  · intro a c hm
    rcases mem_storeInsert_iff.mp hm with ⟨_, hr⟩ | ⟨hm', _⟩
    · exact absurd hr (by simp)
    · obtain ⟨q, hq⟩ := hinv.cand_poll a c hm'
      rw [lookup_storeInsert]
      by_cases ht : a.take 8 = pollAddress pid
      · rw [if_pos ht]
        exact ⟨_, rfl⟩
      · rw [if_neg ht]
        exact ⟨q, hq⟩
  · intro a p hm
    rcases mem_storeInsert_iff.mp hm with ⟨ha, hr⟩ | ⟨hm', _⟩
    · injection hr with hpP
      subst hpP
      rw [candSum_storeInsert, filter_eq_self_of_lookup_none hfree, contrib_poll,
        Nat.zero_add]
      exact hzero.symm
    · rw [candSum_storeInsert, filter_eq_self_of_lookup_none hfree, contrib_poll,
        Nat.zero_add]
      exact hinv.total_eq a p hm'

theorem inv_initializeCandidateOp {s s' : Store} {n : String} {pid : Nat}
    (hinv : Inv s) (h : initializeCandidateOp s n pid = .ok s') : Inv s' := by
  obtain ⟨p, hp, hfree, hs'⟩ := initializeCandidateOp_ok h
  subst hs'
  have hpc : pollAddress pid ≠ candidateAddress pid n :=
    addr_ne_of_lookup hp hfree (by simp)
  have hn1 : keysNodup (storeInsert s (candidateAddress pid n)
      (.candidate { candidate_name := n, candidate_votes := 0 })) :=
    keysNodup_storeInsert hinv.nodup _ _
  have hlp1 : lookup (storeInsert s (candidateAddress pid n)
      (.candidate { candidate_name := n, candidate_votes := 0 }))
      (pollAddress pid) = some (.poll p) := by
    rw [lookup_storeInsert, if_neg hpc, hp]
  have hsum : ∀ pid', candSum (storeInsert
      (storeInsert s (candidateAddress pid n)
        (.candidate { candidate_name := n, candidate_votes := 0 }))
      (pollAddress pid)
      (.poll { p with candidate_amount := p.candidate_amount + 1 })) pid' =
      candSum s pid' := by
    intro pid'
    have h2 := candSum_storeInsert_zero (a := pollAddress pid)
      (r := .poll { p with candidate_amount := p.candidate_amount + 1 }) hn1 pid'
      (contrib_poll _ _ _) (fun r₀ hr₀ => by
        rw [hlp1] at hr₀
        cases hr₀
        rfl)
    rw [h2, candSum_storeInsert, filter_eq_self_of_lookup_none hfree, contrib_candidate]
    split <;> simp
  constructor
  · exact keysNodup_storeInsert hn1 _ _
  · intro a q hm
    rcases mem_storeInsert_iff.mp hm with ⟨ha, hr⟩ | ⟨hm1, _⟩
    · injection hr with hq
      rw [ha, hq]
      exact hinv.poll_addr _ p (mem_of_lookup_eq_some hp)
    · rcases mem_storeInsert_iff.mp hm1 with ⟨_, hr⟩ | ⟨hm0, _⟩
      · exact absurd hr (by simp)
      · exact hinv.poll_addr a q hm0
  · intro a c hm
    rcases mem_storeInsert_iff.mp hm with ⟨_, hr⟩ | ⟨hm1, _⟩
    · exact absurd hr (by simp)
    · rcases mem_storeInsert_iff.mp hm1 with ⟨ha, hr⟩ | ⟨hm0, _⟩
      · rw [ha, candidateAddress_take8, lookup_storeInsert,
          if_pos (pollAddress_def pid).symm]
        exact ⟨_, rfl⟩
      · obtain ⟨q, hq⟩ := hinv.cand_poll a c hm0
        rw [lookup_storeInsert]
        by_cases h8p : a.take 8 = pollAddress pid
        · rw [if_pos h8p]
          exact ⟨_, rfl⟩
        · rw [if_neg h8p, lookup_storeInsert,
            if_neg (addr_ne_of_lookup hq hfree (by simp))]
          exact ⟨q, hq⟩
  · intro a q hm
    rcases mem_storeInsert_iff.mp hm with ⟨ha, hr⟩ | ⟨hm1, _⟩
    · injection hr with hq
      subst hq
      rw [hsum]
      exact hinv.total_eq _ p (mem_of_lookup_eq_some hp)
    · rcases mem_storeInsert_iff.mp hm1 with ⟨_, hr⟩ | ⟨hm0, _⟩
      · exact absurd hr (by simp)
      · rw [hsum]
        exact hinv.total_eq a q hm0

theorem inv_voteOp {s s' : Store} {sg : Pubkey} {n : String} {pid : Nat}
    (hinv : Inv s) (h : voteOp s sg n pid = .ok s') : Inv s' := by
  obtain ⟨p, c, hp, hc, hvr, hs'⟩ := voteOp_ok h
  have hpc : pollAddress pid ≠ candidateAddress pid n :=
    addr_ne_of_lookup hp hc (by simp)
  have hvnp : voterAddress sg pid ≠ pollAddress pid := by
    rcases hvr with hvn | ⟨r, hr, _⟩
    · exact addr_ne_of_lookup hvn hp (by simp)
    · exact addr_ne_of_lookup hr hp (by simp)
  have hvnc : voterAddress sg pid ≠ candidateAddress pid n := by
    rcases hvr with hvn | ⟨r, hr, _⟩
    · exact addr_ne_of_lookup hvn hc (by simp)
    · exact addr_ne_of_lookup hr hc (by simp)
  have hn1 : keysNodup (storeInsert s (candidateAddress pid n)
      (.candidate { candidate_name := c.candidate_name,
                    candidate_votes := c.candidate_votes + 1 })) :=
    keysNodup_storeInsert hinv.nodup _ _
  have hn2 : keysNodup (storeInsert
      (storeInsert s (candidateAddress pid n)
        (.candidate { candidate_name := c.candidate_name,
                      candidate_votes := c.candidate_votes + 1 }))
      (pollAddress pid) (.poll { p with total_votes := p.total_votes + 1 })) :=
    keysNodup_storeInsert hn1 _ _
  have hlp1 : lookup (storeInsert s (candidateAddress pid n)
      (.candidate { candidate_name := c.candidate_name,
                    candidate_votes := c.candidate_votes + 1 }))
      (pollAddress pid) = some (.poll p) := by
    rw [lookup_storeInsert, if_neg hpc, hp]
  have hApoll : pollAddress pid = pollAddress p.poll_id :=
    hinv.poll_addr _ p (mem_of_lookup_eq_some hp)
  have hchain : ∀ pid', candSum s' pid' +
      contrib (candidateAddress pid n) (.candidate c) pid' =
      candSum s pid' +
      contrib (candidateAddress pid n)
        (.candidate { candidate_name := c.candidate_name,
                      candidate_votes := c.candidate_votes + 1 }) pid' := by
    intro pid'
    have e1 := candSum_storeInsert_update
      (r := .candidate { candidate_name := c.candidate_name,
                         candidate_votes := c.candidate_votes + 1 })
      hinv.nodup hc pid'
    have e3 : candSum s' pid' = candSum
        (storeInsert
          (storeInsert s (candidateAddress pid n)
            (.candidate { candidate_name := c.candidate_name,
                          candidate_votes := c.candidate_votes + 1 }))
          (pollAddress pid) (.poll { p with total_votes := p.total_votes + 1 })) pid' := by
      rw [hs']
      apply candSum_storeInsert_zero hn2 pid' (contrib_voterRecord _ _ _)
      intro r₀ hr₀
      rw [lookup_storeInsert, if_neg hvnp, lookup_storeInsert, if_neg hvnc] at hr₀
      rcases hvr with hvn | ⟨r, hr, _⟩
      · rw [hvn] at hr₀
        cases hr₀
      · rw [hr] at hr₀
        cases hr₀
        rfl
    have e2 : candSum
        (storeInsert
          (storeInsert s (candidateAddress pid n)
            (.candidate { candidate_name := c.candidate_name,
                          candidate_votes := c.candidate_votes + 1 }))
          (pollAddress pid) (.poll { p with total_votes := p.total_votes + 1 })) pid' =
        candSum
          (storeInsert s (candidateAddress pid n)
            (.candidate { candidate_name := c.candidate_name,
                          candidate_votes := c.candidate_votes + 1 })) pid' := by
      apply candSum_storeInsert_zero hn1 pid' (contrib_poll _ _ _)
      intro r₀ hr₀
      rw [hlp1] at hr₀
      cases hr₀
      rfl
    rw [e3, e2]
    exact e1
  constructor
  · rw [hs']
    exact keysNodup_storeInsert hn2 _ _
  · intro a q hm
    rw [hs'] at hm
    rcases mem_storeInsert_iff.mp hm with ⟨_, hr⟩ | ⟨hm2, _⟩
    · exact absurd hr (by simp)
    · rcases mem_storeInsert_iff.mp hm2 with ⟨ha, hr⟩ | ⟨hm1, _⟩
      · injection hr with hq
        rw [ha, hq]
        exact hApoll
      · rcases mem_storeInsert_iff.mp hm1 with ⟨_, hr⟩ | ⟨hm0, _⟩
        · exact absurd hr (by simp)
        · exact hinv.poll_addr a q hm0
  · intro a c' hm
    rw [hs'] at hm
    rw [hs']
    rcases mem_storeInsert_iff.mp hm with ⟨_, hr⟩ | ⟨hm2, _⟩
    · exact absurd hr (by simp)
    · rcases mem_storeInsert_iff.mp hm2 with ⟨_, hr⟩ | ⟨hm1, _⟩
      · exact absurd hr (by simp)
      · rcases mem_storeInsert_iff.mp hm1 with ⟨ha, hr⟩ | ⟨hm0, _⟩
        · rw [ha, candidateAddress_take8, ← pollAddress_def, lookup_storeInsert,
            if_neg (Ne.symm hvnp), lookup_storeInsert, if_pos rfl]
          exact ⟨_, rfl⟩
        · obtain ⟨q, hq⟩ := hinv.cand_poll a c' hm0
          have h8v : a.take 8 ≠ voterAddress sg pid := by
            rcases hvr with hvn | ⟨r, hr2, _⟩
            · exact addr_ne_of_lookup hq hvn (by simp)
            · exact addr_ne_of_lookup hq hr2 (by simp)
          rw [lookup_storeInsert, if_neg h8v, lookup_storeInsert]
          by_cases h8p : a.take 8 = pollAddress pid
          · rw [if_pos h8p]
            exact ⟨_, rfl⟩
          · rw [if_neg h8p, lookup_storeInsert,
              if_neg (addr_ne_of_lookup hq hc (by simp))]
            exact ⟨q, hq⟩
  · intro a q hm
    rw [hs'] at hm
    rcases mem_storeInsert_iff.mp hm with ⟨_, hr⟩ | ⟨hm2, _⟩
    · exact absurd hr (by simp)
    · rcases mem_storeInsert_iff.mp hm2 with ⟨ha, hr⟩ | ⟨hm1, hne1⟩
      · injection hr with hq
        subst hq
        have hcc : contrib (candidateAddress pid n) (.candidate c) p.poll_id =
            c.candidate_votes := by
          rw [contrib_candidate, if_pos (by rw [candidateAddress_take8]; exact hApoll)]
        have hcc1 : contrib (candidateAddress pid n)
            (.candidate { candidate_name := c.candidate_name,
                          candidate_votes := c.candidate_votes + 1 }) p.poll_id =
            c.candidate_votes + 1 := by
          rw [contrib_candidate, if_pos (by rw [candidateAddress_take8]; exact hApoll)]
        have hch := hchain p.poll_id
        rw [hcc, hcc1] at hch
        have htot := hinv.total_eq _ p (mem_of_lookup_eq_some hp)
        rw [show ({ p with total_votes := p.total_votes + 1 } : Poll).total_votes =
              p.total_votes + 1 from rfl,
            show ({ p with total_votes := p.total_votes + 1 } : Poll).poll_id =
              p.poll_id from rfl]
        omega
      · rcases mem_storeInsert_iff.mp hm1 with ⟨_, hr⟩ | ⟨hm0, _⟩
        · exact absurd hr (by simp)
        · have haq : a = pollAddress q.poll_id := hinv.poll_addr a q hm0
          have hneq : u64le pid ≠ u64le q.poll_id := by
            intro hcc
            apply hne1
            rw [haq, pollAddress_def, ← hcc, ← pollAddress_def]
          have hc0 : contrib (candidateAddress pid n) (.candidate c) q.poll_id = 0 := by
            rw [contrib_candidate, if_neg (by rw [candidateAddress_take8]; exact hneq)]
          have hc1 : contrib (candidateAddress pid n)
              (.candidate { candidate_name := c.candidate_name,
                            candidate_votes := c.candidate_votes + 1 }) q.poll_id = 0 := by
            rw [contrib_candidate, if_neg (by rw [candidateAddress_take8]; exact hneq)]
          have hch := hchain q.poll_id
          rw [hc0, hc1] at hch
          rw [hinv.total_eq a q hm0]
          omega

/-- Every reachable store satisfies the invariant. -/
theorem reachable_inv {s : Store} (h : Reachable s) : Inv s := by
  induction h with
  | empty =>
    constructor
    · exact List.nodup_nil
    · intro a p hm
      cases hm
    · intro a c hm
      cases hm
    · intro a p hm
      cases hm
  | initPoll _ _ _ _ _ hok ih => exact inv_initializePollOp ih hok
  | initCandidate _ _ _ hok ih => exact inv_initializeCandidateOp ih hok
  | castVote _ _ _ _ hok ih => exact inv_voteOp ih hok

/-- The error component of a whole-instruction result. -/
def errorOf (r : Except TxError Store) : Option TxError :=
  match r with
  | .error e => some e
  | .ok _ => none

/-- Forward computation of a successful `vote` instruction. -/
theorem voteOp_succeeds {s : Store} {sg : Pubkey} {n : String} {pid : Nat}
    {p : Poll} {c : Candidate}
    (hp : lookup s (pollAddress pid) = some (.poll p))
    (hc : lookup s (candidateAddress pid n) = some (.candidate c))
    (hv : lookup s (voterAddress sg pid) = none ∨
      ∃ r, lookup s (voterAddress sg pid) = some (.voterRecord r) ∧ r.voted = false) :
    voteOp s sg n pid = .ok (storeInsert
      (storeInsert
        (storeInsert s (candidateAddress pid n)
          (.candidate { candidate_name := c.candidate_name,
                        candidate_votes := c.candidate_votes + 1 }))
        (pollAddress pid) (.poll { p with total_votes := p.total_votes + 1 }))
      (voterAddress sg pid)
      (.voterRecord { voted := true, poll := pollAddress pid })) := by
  rcases hv with hvn | ⟨r, hr, hrf⟩
  · simp only [voteOp, hp, hc, hvn, voteFinish, vote, defaultVoterRecord,
      Bool.false_eq_true, if_false]
  · simp only [voteOp, hp, hc, hr, voteFinish, vote, hrf, Bool.false_eq_true, if_false]

theorem initialize_poll_error_shape {pid : Nat} {d : String} {ps pe : Nat}
    {e : VotingError} (h : initialize_poll pid d ps pe = .error e) :
    e = .InvalidTimestamp ∨ e = .InvalidPollDuration := by
  rw [initialize_poll] at h
  split at h
  · injection h with h2
    exact Or.inl h2.symm
  · split at h
    · injection h with h2
      exact Or.inr h2.symm
    · exact absurd h (by simp)

theorem initializePollOp_error_shape {s : Store} {pid : Nat} {d : String}
    {ps pe : Nat} {e : VotingError}
    (h : initializePollOp s pid d ps pe = .error (.program e)) :
    e = .InvalidTimestamp ∨ e = .InvalidPollDuration := by
  rw [initializePollOp] at h
  split at h
  · injection h with h2
    exact absurd h2 (by simp)
  · split at h
    · next e' he' =>
      injection h with h2
      injection h2 with h3
      exact h3 ▸ initialize_poll_error_shape he'
    · exact absurd h (by simp)

theorem voteOp_error_shape {s : Store} {sg : Pubkey} {n : String} {pid : Nat}
    {e : VotingError} (h : voteOp s sg n pid = .error (.program e)) :
    e = .AlreadyVoted := by
  rw [voteOp] at h
  split at h
  · split at h
    · split at h
      · rw [voteFinish] at h
        split at h
        · next e' he' =>
          rw [vote] at he'
          split at he'
          · injection he' with h2
            injection h with h3
            injection h3 with h4
            rw [← h4, ← h2]
          · exact absurd he' (by simp)
        · exact absurd h (by simp)
      · rw [voteFinish] at h
        split at h
        · next e' he' =>
          rw [vote, if_neg (by decide : ¬defaultVoterRecord.voted = true)] at he'
          exact absurd he' (by simp)
        · exact absurd h (by simp)
      · injection h with h2
        exact absurd h2 (by simp)
    · injection h with h2
      exact absurd h2 (by simp)
  · injection h with h2
    exact absurd h2 (by simp)

/-- A sample voter identity: a 32-byte key. -/
def sampleSigner : Pubkey := List.replicate 32 7

/-- The store after `CreatePoll(1, "Best fruit", 1000, 2000)`. -/
def demoStore1 : Store :=
  [(pollAddress 1,
    .poll { poll_id := 1, description := "Best fruit", poll_start := 1000,
            poll_end := 2000, candidate_amount := 0, total_votes := 0 })]

/-- The store after additionally `AddCandidate(1, "Apple")` and a vote for
"Apple" by `sampleSigner`. -/
def demoStore3 : Store :=
  [(voterAddress sampleSigner 1,
    .voterRecord { voted := true, poll := pollAddress 1 }),
   (pollAddress 1,
    .poll { poll_id := 1, description := "Best fruit", poll_start := 1000,
            poll_end := 2000, candidate_amount := 1, total_votes := 1 }),
   (candidateAddress 1 "Apple",
    .candidate { candidate_name := "Apple", candidate_votes := 1 })]

/-- The poll record held in `demoStore3`. -/
def demoPoll3 : Poll :=
  { poll_id := 1, description := "Best fruit", poll_start := 1000,
    poll_end := 2000, candidate_amount := 1, total_votes := 1 }

/-- The store between `demoStore1` and `demoStore3`: after
`AddCandidate(1, "Apple")`. -/
def demoStore2 : Store :=
  [(pollAddress 1,
    .poll { poll_id := 1, description := "Best fruit", poll_start := 1000,
            poll_end := 2000, candidate_amount := 1, total_votes := 0 }),
   (candidateAddress 1 "Apple",
    .candidate { candidate_name := "Apple", candidate_votes := 0 })]

/-- C1: in every state whose voter record for (voter, poll) is marked
`voted = true`, the `vote` instruction for an existing poll and candidate of
that poll fails with `AlreadyVoted`, and the state after the (rolled-back)
call is exactly the state before: every record is unchanged. -/
theorem vote_already_voted_rejected (s : Store) (sg : Pubkey) (n : String)
    (pid : Nat) (p : Poll) (c : Candidate) (r : VoterRecord)
    (hp : lookup s (pollAddress pid) = some (.poll p))
    (hc : lookup s (candidateAddress pid n) = some (.candidate c))
    (hv : lookup s (voterAddress sg pid) = some (.voterRecord r))
    (hr : r.voted = true) :
    voteOp s sg n pid = .error (.program .AlreadyVoted) ∧
      applyVoteOp s sg n pid = s := by
  have hvote : voteOp s sg n pid = .error (.program .AlreadyVoted) := by
    simp [voteOp, hp, hc, hv, voteFinish, vote, hr]
  exact ⟨hvote, by rw [applyVoteOp, hvote]⟩

/-- C1 witness: evaluated on a concrete three-record store whose voter
record is already marked voted. -/
theorem vote_already_voted_rejected_witness :
    (lookup demoStore3 (pollAddress 1) = some (.poll demoPoll3) ∧
     lookup demoStore3 (candidateAddress 1 "Apple") =
       some (.candidate { candidate_name := "Apple", candidate_votes := 1 }) ∧
     lookup demoStore3 (voterAddress sampleSigner 1) =
       some (.voterRecord { voted := true, poll := pollAddress 1 }) ∧
     ({ voted := true, poll := pollAddress 1 } : VoterRecord).voted = true) ∧
    (voteOp demoStore3 sampleSigner "Apple" 1 = .error (.program .AlreadyVoted) ∧
     applyVoteOp demoStore3 sampleSigner "Apple" 1 = demoStore3) :=
  ⟨⟨rfl, rfl, rfl, rfl⟩,
   vote_already_voted_rejected demoStore3 sampleSigner "Apple" 1 demoPoll3
     { candidate_name := "Apple", candidate_votes := 1 }
     { voted := true, poll := pollAddress 1 } rfl rfl rfl rfl⟩

/-- C2: in every reachable state, every poll's `total_votes` equals the sum
of `candidate_votes` over the candidates belonging to that poll. -/
theorem poll_total_votes_eq_sum (s : Store) (a : Addr) (p : Poll)
    (hs : Reachable s) (hp : lookup s a = some (.poll p)) :
    p.total_votes = candSum s p.poll_id :=
  (reachable_inv hs).total_eq a p (mem_of_lookup_eq_some hp)

/-- C2 witness: the invariant evaluated on the concrete reachable state
after one poll, one candidate and one vote. -/
theorem poll_total_votes_eq_sum_witness :
    (Reachable demoStore3 ∧
      lookup demoStore3 (pollAddress 1) = some (.poll demoPoll3)) ∧
    demoPoll3.total_votes = candSum demoStore3 demoPoll3.poll_id := by
  have h1 : initializePollOp [] 1 "Best fruit" 1000 2000 = .ok demoStore1 := rfl
  have h2 : initializeCandidateOp demoStore1 "Apple" 1 = .ok demoStore2 := rfl
  have h3 : voteOp demoStore2 sampleSigner "Apple" 1 = .ok demoStore3 := rfl
  have hreach : Reachable demoStore3 :=
    Reachable.castVote _ _ _
      (Reachable.initCandidate _ _
        (Reachable.initPoll _ _ _ _ Reachable.empty h1) h2) h3
  exact ⟨⟨hreach, rfl⟩,
    poll_total_votes_eq_sum demoStore3 (pollAddress 1) demoPoll3 hreach rfl⟩

/-- C3: in every state whose voter record for (voter, poll) is absent or
unmarked, `vote` on an existing poll and candidate succeeds; afterwards the
candidate's `candidate_votes` and the poll's `total_votes` are each one
larger, and the voter record is marked with the poll's derived address. -/
theorem vote_fresh_voter_succeeds (s : Store) (sg : Pubkey) (n : String)
    (pid : Nat) (p : Poll) (c : Candidate)
    (hp : lookup s (pollAddress pid) = some (.poll p))
    (hc : lookup s (candidateAddress pid n) = some (.candidate c))
    (hv : lookup s (voterAddress sg pid) = none ∨
      ∃ r, lookup s (voterAddress sg pid) = some (.voterRecord r) ∧ r.voted = false) :
    ∃ s', voteOp s sg n pid = .ok s' ∧
      lookup s' (candidateAddress pid n) =
        some (.candidate { candidate_name := c.candidate_name,
                           candidate_votes := c.candidate_votes + 1 }) ∧
      lookup s' (pollAddress pid) =
        some (.poll { p with total_votes := p.total_votes + 1 }) ∧
      lookup s' (voterAddress sg pid) =
        some (.voterRecord { voted := true, poll := pollAddress pid }) := by
  have hpc : pollAddress pid ≠ candidateAddress pid n :=
    addr_ne_of_lookup hp hc (by simp)
  have hvnp : voterAddress sg pid ≠ pollAddress pid := by
    rcases hv with hvn | ⟨r, hrr, _⟩
    · exact addr_ne_of_lookup hvn hp (by simp)
    · exact addr_ne_of_lookup hrr hp (by simp)
  have hvnc : voterAddress sg pid ≠ candidateAddress pid n := by
    rcases hv with hvn | ⟨r, hrr, _⟩
    · exact addr_ne_of_lookup hvn hc (by simp)
    · exact addr_ne_of_lookup hrr hc (by simp)
  refine ⟨_, voteOp_succeeds hp hc hv, ?_, ?_, ?_⟩
  · rw [lookup_storeInsert, if_neg (Ne.symm hvnc), lookup_storeInsert,
      if_neg (Ne.symm hpc), lookup_storeInsert_self]
  · rw [lookup_storeInsert, if_neg (Ne.symm hvnp), lookup_storeInsert_self]
  · rw [lookup_storeInsert_self]

/-- C3 witness: a first vote on the concrete one-poll one-candidate store. -/
theorem vote_fresh_voter_succeeds_witness :
    (lookup demoStore2 (pollAddress 1) =
       some (.poll { poll_id := 1, description := "Best fruit", poll_start := 1000,
                     poll_end := 2000, candidate_amount := 1, total_votes := 0 }) ∧
     lookup demoStore2 (candidateAddress 1 "Apple") =
       some (.candidate { candidate_name := "Apple", candidate_votes := 0 }) ∧
     lookup demoStore2 (voterAddress sampleSigner 1) = none) ∧
    (∃ s', voteOp demoStore2 sampleSigner "Apple" 1 = .ok s' ∧
      lookup s' (candidateAddress 1 "Apple") =
        some (.candidate { candidate_name := "Apple", candidate_votes := 0 + 1 }) ∧
      lookup s' (pollAddress 1) =
        some (.poll { poll_id := 1, description := "Best fruit", poll_start := 1000,
                      poll_end := 2000, candidate_amount := 1, total_votes := 0 + 1 }) ∧
      lookup s' (voterAddress sampleSigner 1) =
        some (.voterRecord { voted := true, poll := pollAddress 1 })) :=
  ⟨⟨rfl, rfl, rfl⟩,
   vote_fresh_voter_succeeds demoStore2 sampleSigner "Apple" 1
     { poll_id := 1, description := "Best fruit", poll_start := 1000,
       poll_end := 2000, candidate_amount := 1, total_votes := 0 }
     { candidate_name := "Apple", candidate_votes := 0 }
     rfl rfl (Or.inl rfl)⟩

/-- C4 counterexample: with poll_start = poll_end = 0 (so poll_start >=
poll_end, and both timestamps out of the sanity range), `initialize_poll`
fails with `InvalidTimestamp`, not `InvalidPollDuration`: the timestamp
check runs first, so the claim's "regardless of whether poll_start and
poll_end are inside the sanity range" is false. -/
theorem initialize_poll_duration_counterexample :
    initialize_poll 1 "d" 0 0 = .error .InvalidTimestamp ∧
    initialize_poll 1 "d" 0 0 ≠ .error .InvalidPollDuration ∧
    initializePollOp [] 1 "d" 0 0 = .error (.program .InvalidTimestamp) := by
  refine ⟨rfl, fun h => ?_, rfl⟩
  rw [show initialize_poll 1 "d" 0 0 = .error .InvalidTimestamp from rfl] at h
  injection h with h2
  exact absurd h2 (by simp)

/-- C4 (amended): for every input whose two timestamps both pass the sanity
check, `initialize_poll` with poll_start >= poll_end fails with
`InvalidPollDuration`; with a timestamp out of range it fails with
`InvalidTimestamp` instead. -/
theorem initialize_poll_invalid_duration (pid : Nat) (d : String) (ps pe : Nat)
    (hs : is_valid_unix_timestamp ps = true)
    (he : is_valid_unix_timestamp pe = true) (hge : ps ≥ pe) :
    initialize_poll pid d ps pe = .error .InvalidPollDuration := by
  simp [initialize_poll, hs, he, hge]

/-- C4 witness: in-range timestamps in the wrong order. -/
theorem initialize_poll_invalid_duration_witness :
    (is_valid_unix_timestamp 2000 = true ∧
     is_valid_unix_timestamp 1000 = true ∧ 2000 ≥ 1000) ∧
    initialize_poll 1 "d" 2000 1000 = .error .InvalidPollDuration :=
  ⟨⟨rfl, rfl, by omega⟩,
   initialize_poll_invalid_duration 1 "d" 2000 1000 rfl rfl (by omega)⟩

/-- C5: the reserved errors are unreachable: no state and no input make the
`vote` instruction fail with `PollNotStarted` or `PollEnded`, and none make
the `initialize_poll` instruction fail with `PollEndedInPast`. -/
theorem reserved_errors_unreachable (s : Store) (sg : Pubkey) (n : String)
    (pid : Nat) (d : String) (ps pe : Nat) :
    voteOp s sg n pid ≠ .error (.program .PollNotStarted) ∧
    voteOp s sg n pid ≠ .error (.program .PollEnded) ∧
    initializePollOp s pid d ps pe ≠ .error (.program .PollEndedInPast) := by
  refine ⟨fun h => ?_, fun h => ?_, fun h => ?_⟩
  · exact absurd (voteOp_error_shape h) (by simp)
  · exact absurd (voteOp_error_shape h) (by simp)
  · rcases initializePollOp_error_shape h with h2 | h2 <;> exact absurd h2 (by simp)

/-- C6: `initialize_poll` fails with `InvalidTimestamp` exactly when a
timestamp is zero or at least 1_893_456_000; it gets past that check exactly
when both timestamps are strictly between 0 and 1_893_456_000. -/
theorem initialize_poll_invalid_timestamp_iff (pid : Nat) (d : String)
    (ps pe : Nat) :
    initialize_poll pid d ps pe = .error .InvalidTimestamp ↔
      ¬(0 < ps ∧ ps < 1893456000 ∧ 0 < pe ∧ pe < 1893456000) := by
  have hiff : ∀ t : Nat, is_valid_unix_timestamp t = true ↔
      0 < t ∧ t < 1893456000 := by
    intro t
    simp [is_valid_unix_timestamp]
  constructor
  · intro h hrange
    rw [initialize_poll] at h
    split at h
    · next hcond =>
      rw [Bool.or_eq_true, Bool.not_eq_true', Bool.not_eq_true'] at hcond
      rcases hcond with hcond | hcond
      · rw [(hiff ps).mpr ⟨hrange.1, hrange.2.1⟩] at hcond
        cases hcond
      · rw [(hiff pe).mpr ⟨hrange.2.2.1, hrange.2.2.2⟩] at hcond
        cases hcond
    · split at h
      · exact absurd h (by simp)
      · exact absurd h (by simp)
  · intro hrange
    have hval : ¬(is_valid_unix_timestamp ps = true ∧
        is_valid_unix_timestamp pe = true) := by
      rintro ⟨h1, h2⟩
      exact hrange ⟨((hiff ps).mp h1).1, ((hiff ps).mp h1).2,
        ((hiff pe).mp h2).1, ((hiff pe).mp h2).2⟩
    rw [initialize_poll]
    have hcond : (!(is_valid_unix_timestamp ps) ||
        !(is_valid_unix_timestamp pe)) = true := by
      by_cases h1 : is_valid_unix_timestamp ps = true
      · by_cases h2 : is_valid_unix_timestamp pe = true
        · exact absurd ⟨h1, h2⟩ hval
        · rw [Bool.not_eq_true] at h2
          simp [h2]
      · rw [Bool.not_eq_true] at h1
        simp [h1]
    rw [if_pos hcond]

/-- C7: with in-range timestamps in the right order (and the derived poll
address still free), `initialize_poll` succeeds and the created poll record
carries exactly the inputs, with both counters zero. -/
theorem initialize_poll_creates (s : Store) (pid : Nat) (d : String) (ps pe : Nat)
    (hfree : lookup s (pollAddress pid) = none)
    (hts : is_valid_unix_timestamp ps = true)
    (hte : is_valid_unix_timestamp pe = true)
    (hlt : ps < pe) :
    ∃ s', initializePollOp s pid d ps pe = .ok s' ∧
      lookup s' (pollAddress pid) =
        some (.poll { poll_id := pid, description := d, poll_start := ps,
                      poll_end := pe, candidate_amount := 0, total_votes := 0 }) := by
  have hhandler : initialize_poll pid d ps pe =
      .ok { poll_id := pid, description := d, poll_start := ps, poll_end := pe,
            candidate_amount := 0, total_votes := 0 } := by
    simp [initialize_poll, hts, hte, Nat.not_le.mpr hlt]
  refine ⟨storeInsert s (pollAddress pid)
      (.poll { poll_id := pid, description := d, poll_start := ps, poll_end := pe,
               candidate_amount := 0, total_votes := 0 }),
    ?_, lookup_storeInsert_self _ _ _⟩
  simp only [initializePollOp, hfree, hhandler]

/-- C7 witness: creating poll 1 in the empty store. -/
theorem initialize_poll_creates_witness :
    (lookup ([] : Store) (pollAddress 1) = none ∧
     is_valid_unix_timestamp 1000 = true ∧
     is_valid_unix_timestamp 2000 = true ∧ 1000 < 2000) ∧
    (∃ s', initializePollOp [] 1 "Best fruit" 1000 2000 = .ok s' ∧
      lookup s' (pollAddress 1) =
        some (.poll { poll_id := 1, description := "Best fruit", poll_start := 1000,
                      poll_end := 2000, candidate_amount := 0, total_votes := 0 })) :=
  ⟨⟨rfl, rfl, rfl, by omega⟩,
   initialize_poll_creates [] 1 "Best fruit" 1000 2000 rfl rfl rfl (by omega)⟩

/-- C8: for an existing poll and a still-free derived candidate address,
`initialize_candidate` succeeds, creates the candidate record with the given
name and zero votes, and bumps the poll's `candidate_amount` by exactly one
while leaving every other poll field (total_votes, timestamps, description)
unchanged. -/
theorem initialize_candidate_creates (s : Store) (n : String) (pid : Nat)
    (p : Poll)
    (hp : lookup s (pollAddress pid) = some (.poll p))
    (hfree : lookup s (candidateAddress pid n) = none) :
    ∃ s', initializeCandidateOp s n pid = .ok s' ∧
      lookup s' (candidateAddress pid n) =
        some (.candidate { candidate_name := n, candidate_votes := 0 }) ∧
      lookup s' (pollAddress pid) =
        some (.poll { p with candidate_amount := p.candidate_amount + 1 }) := by
  have hpc : pollAddress pid ≠ candidateAddress pid n :=
    addr_ne_of_lookup hp hfree (by simp)
  refine ⟨storeInsert
      (storeInsert s (candidateAddress pid n)
        (.candidate { candidate_name := n, candidate_votes := 0 }))
      (pollAddress pid) (.poll { p with candidate_amount := p.candidate_amount + 1 }),
    ?_, ?_, lookup_storeInsert_self _ _ _⟩
  · simp only [initializeCandidateOp, hp, hfree, initialize_candidate]
  · rw [lookup_storeInsert, if_neg (Ne.symm hpc), lookup_storeInsert_self]

/-- C8 witness: adding candidate "Apple" to the freshly created poll 1. -/
theorem initialize_candidate_creates_witness :
    (lookup demoStore1 (pollAddress 1) =
       some (.poll { poll_id := 1, description := "Best fruit", poll_start := 1000,
                     poll_end := 2000, candidate_amount := 0, total_votes := 0 }) ∧
     lookup demoStore1 (candidateAddress 1 "Apple") = none) ∧
    (∃ s', initializeCandidateOp demoStore1 "Apple" 1 = .ok s' ∧
      lookup s' (candidateAddress 1 "Apple") =
        some (.candidate { candidate_name := "Apple", candidate_votes := 0 }) ∧
      lookup s' (pollAddress 1) =
        some (.poll { poll_id := 1, description := "Best fruit", poll_start := 1000,
                      poll_end := 2000, candidate_amount := 0 + 1,
                      total_votes := 0 })) :=
  ⟨⟨rfl, rfl⟩,
   initialize_candidate_creates demoStore1 "Apple" 1
     { poll_id := 1, description := "Best fruit", poll_start := 1000,
       poll_end := 2000, candidate_amount := 0, total_votes := 0 } rfl rfl⟩

/-- C9 counterexample: the candidate derivation at the distinct seed tuple
(poll 0, empty name) yields exactly the poll derivation's address for
poll 0 — the seed byte strings concatenate to the same key, so the derived
addresses are not distinct across these two seed tuples. -/
theorem address_collision_counterexample :
    candidateAddress 0 "" = pollAddress 0 := by decide

/-- C9 (amended): each derivation is deterministic (equal seed tuples yield
equal addresses, the right-to-left directions below) and injective within
its own kind (left-to-right); a poll address never equals a voter-record
address of a 32-byte identity; and a poll address differs from a candidate
address whenever the candidate name is non-empty. Cross-derivation
distinctness in general is false (see the counterexample). -/
theorem address_derivation_inj (p₁ p₂ q₁ q₂ : Nat) (n₁ n₂ : String)
    (v₁ v₂ : Pubkey)
    (hp₁ : p₁ < 18446744073709551616) (hp₂ : p₂ < 18446744073709551616)
    (hq₁ : q₁ < 18446744073709551616) (hq₂ : q₂ < 18446744073709551616) :
    (pollAddress p₁ = pollAddress p₂ ↔ p₁ = p₂) ∧
    (candidateAddress p₁ n₁ = candidateAddress p₂ n₂ ↔ p₁ = p₂ ∧ n₁ = n₂) ∧
    (voterAddress v₁ q₁ = voterAddress v₂ q₂ ↔ v₁ = v₂ ∧ q₁ = q₂) ∧
    (v₁.length = 32 → pollAddress p₁ ≠ voterAddress v₁ q₁) ∧
    (n₁ ≠ "" → pollAddress p₁ ≠ candidateAddress p₂ n₁) := by
  refine ⟨?_, ?_, ?_, ?_, ?_⟩
  · constructor
    · exact fun h => u64le_inj hp₁ hp₂ h
    · intro h
      rw [h]
  · constructor
    · intro h
      rw [candidateAddress, candidateAddress] at h
      obtain ⟨h8, hsx⟩ := List.append_inj h (by rw [u64le_length, u64le_length])
      exact ⟨u64le_inj hp₁ hp₂ h8, strBytes_inj hsx⟩
    · rintro ⟨h1, h2⟩
      rw [candidateAddress, candidateAddress, h1, h2]
  · constructor
    · intro h
      rw [voterAddress, voterAddress] at h
      obtain ⟨hv, h8⟩ := List.append_inj' h (by rw [u64le_length, u64le_length])
      exact ⟨hv, u64le_inj hq₁ hq₂ h8⟩
    · rintro ⟨h1, h2⟩
      rw [voterAddress, voterAddress, h1, h2]
  · intro hlen h
    have hl := congrArg List.length h
    rw [pollAddress_def, u64le_length, voterAddress, List.length_append, hlen,
      u64le_length] at hl
    omega
  · intro hne h
    have hl := congrArg List.length h
    rw [pollAddress_def, u64le_length, candidateAddress, List.length_append,
      u64le_length] at hl
    have hpos : 0 < (strBytes n₁).length :=
      List.length_pos.mpr (strBytes_ne_nil hne)
    omega

/-- C9 witness: the amended statement evaluated at concrete seed tuples. -/
theorem address_derivation_inj_witness :
    ((1 : Nat) < 18446744073709551616 ∧ (2 : Nat) < 18446744073709551616 ∧
     (3 : Nat) < 18446744073709551616 ∧ (4 : Nat) < 18446744073709551616) ∧
    ((pollAddress 1 = pollAddress 2 ↔ (1 : Nat) = 2) ∧
     (candidateAddress 1 "A" = candidateAddress 2 "B" ↔
       (1 : Nat) = 2 ∧ ("A" : String) = "B") ∧
     (voterAddress (List.replicate 32 0) 3 = voterAddress (List.replicate 32 1) 4 ↔
       List.replicate 32 (0 : Nat) = List.replicate 32 1 ∧ (3 : Nat) = 4) ∧
     ((List.replicate 32 (0 : Nat)).length = 32 →
       pollAddress 1 ≠ voterAddress (List.replicate 32 0) 3) ∧
     (("A" : String) ≠ "" → pollAddress 1 ≠ candidateAddress 2 "A")) :=
  ⟨⟨by omega, by omega, by omega, by omega⟩,
   address_derivation_inj 1 2 3 4 "A" "B" (List.replicate 32 0)
     (List.replicate 32 1) (by omega) (by omega) (by omega) (by omega)⟩

/-- C10: neither creation handler checks string lengths: the error outcome
of `initialize_poll` is identical for any two descriptions (in particular a
description longer than 200 bytes never causes a failure that a short one
would not), and `initialize_candidate` succeeds for every candidate name —
of any length — whenever the poll exists and the derived candidate address
is free. -/
theorem no_length_validation :
    (∀ (s : Store) (pid : Nat) (d₁ d₂ : String) (ps pe : Nat),
      errorOf (initializePollOp s pid d₁ ps pe) =
        errorOf (initializePollOp s pid d₂ ps pe)) ∧
    (∀ (s : Store) (n : String) (pid : Nat) (p : Poll),
      lookup s (pollAddress pid) = some (.poll p) →
      lookup s (candidateAddress pid n) = none →
      ∃ s', initializeCandidateOp s n pid = .ok s') := by
  constructor
  · intro s pid d₁ d₂ ps pe
    cases hl : lookup s (pollAddress pid) with
    | some r => simp [initializePollOp, hl, errorOf]
    | none =>
      simp only [initializePollOp, hl]
      cases h1 : (!(is_valid_unix_timestamp ps) || !(is_valid_unix_timestamp pe)) with
      | true => simp [initialize_poll, h1, errorOf]
      | false =>
        by_cases h2 : ps ≥ pe
        · simp [initialize_poll, h1, h2, errorOf]
        · simp [initialize_poll, h1, h2, errorOf]
  · intro s n pid p hp hfree
    refine ⟨storeInsert
        (storeInsert s (candidateAddress pid n)
          (.candidate { candidate_name := n, candidate_votes := 0 }))
        (pollAddress pid)
        (.poll { p with candidate_amount := p.candidate_amount + 1 }), ?_⟩
    simp only [initializeCandidateOp, hp, hfree, initialize_candidate]

/-- C10 witness: a 201-character description changes nothing about the
outcome, and a 33-character candidate name is accepted. -/
theorem no_length_validation_witness :
    (errorOf (initializePollOp [] 1 (String.mk (List.replicate 201 'x')) 1000 2000) =
      errorOf (initializePollOp [] 1 "d" 1000 2000)) ∧
    (lookup demoStore1 (pollAddress 1) =
       some (.poll { poll_id := 1, description := "Best fruit", poll_start := 1000,
                     poll_end := 2000, candidate_amount := 0, total_votes := 0 }) ∧
     lookup demoStore1 (candidateAddress 1 (String.mk (List.replicate 33 'y'))) =
       none ∧
     ∃ s', initializeCandidateOp demoStore1 (String.mk (List.replicate 33 'y')) 1 =
       .ok s') :=
  ⟨no_length_validation.1 [] 1 (String.mk (List.replicate 201 'x')) "d" 1000 2000,
   rfl, rfl,
   no_length_validation.2 demoStore1 (String.mk (List.replicate 33 'y')) 1
     { poll_id := 1, description := "Best fruit", poll_start := 1000,
       poll_end := 2000, candidate_amount := 0, total_votes := 0 } rfl rfl⟩

end Voting
